import Mathlib

/-!
Verification of the justjoy transport stack against its specification.

The development shallowly embeds the C++ sources:
  * `src/tlvc.cpp`       — the TLVC envelope codec (`tlvc_encode_data`,
    `tlvc_decode_data`);
  * `src/server.cpp`     — the connection multiplexer slot logic
    (`server_on_client_connect`, `server_on_client_disconnect`) and the
    per-client readiness dispatch of `server_run`;
  * `src/warpout.cpp` and `src/netstickd.cpp` — the session handlers
    (`handle_msg`, `jsproxy_handle_message`) and the read-handler return
    computations (`on_read`, `jsproxy_read`).

Bytes are modelled as `Nat` values below 256, buffers as `List Nat`, raw
pointer-addressed payload memory as functions `Nat → Nat` (the C code can
and does read past the end of a payload, so the memory a payload pointer
gives access to is not bounded by the payload length). Machine 16-bit
arithmetic is explicit `% 65536`.
-/

namespace Justjoy

/-! ## TLVC envelope codec (`src/tlvc.cpp`)

`tlvc_header_t` is `{tag : uint16_t, length : uint16_t}` (4 bytes) and
`tlvc_footer_t` is `{checksum : uint16_t}` (2 bytes); the structs are
serialized in host order, modelled little-endian. -/

/-- The two bytes of a `uint16_t` value in memory (little-endian). -/
def u16Bytes (v : Nat) : List Nat :=
  [v % 256, v / 256 % 256]

/-- The 4 in-memory bytes of a `tlvc_header_t` with the given field values. -/
def headerBytes (tag len : Nat) : List Nat :=
  u16Bytes tag ++ u16Bytes len

/-- The additive checksum loop of `tlvc.cpp`: a `uint16_t` accumulator to
which each byte is added, wrapping mod 2^16. -/
def tlvcChecksum (bytes : List Nat) : Nat :=
  bytes.foldl (fun acc b => (acc + b) % 65536) 0

/-- `tlvc_data_t`: header fields, payload bytes, payload length, footer
checksum. The C struct stores a pointer+length pair for the payload; here
the pointed-to bytes are carried as a list. -/
structure tlvc_data_t where
  tag : Nat
  length : Nat
  data : List Nat
  dataLen : Nat
  checksum : Nat
  deriving Repr, DecidableEq

/-- `tlvc_encode_data` (tlvc.cpp:12-33): stores the tag and the payload
length into the `uint16_t` header fields (the length assignment truncates
the `size_t` argument mod 2^16), keeps the full payload pointer/length, and
computes the footer checksum over all header bytes followed by all
`dataLen_` payload bytes. -/
def tlvc_encode_data (tag : Nat) (data : List Nat) : tlvc_data_t :=
  { tag := tag % 65536
    length := data.length % 65536
    data := data
    dataLen := data.length
    checksum := tlvcChecksum (headerBytes (tag % 65536) (data.length % 65536) ++ data) }

/-- The serialized envelope: header bytes, then payload bytes, then footer
bytes, exactly as `encode_and_transmit` (warpout.cpp:56-92) writes them. -/
def serializeEnvelope (t : tlvc_data_t) : List Nat :=
  headerBytes t.tag t.length ++ t.data ++ u16Bytes t.checksum

/-- The `header->length` field read by `tlvc_decode_data` from a raw byte
buffer: the little-endian `uint16_t` at offset 2. -/
def hdrLenOf (bytes : List Nat) : Nat :=
  bytes.getD 2 0 + 256 * bytes.getD 3 0

/-- The `header->tag` field read from a raw byte buffer: the little-endian
`uint16_t` at offset 0. -/
def hdrTagOf (bytes : List Nat) : Nat :=
  bytes.getD 0 0 + 256 * bytes.getD 1 0

/-- The footer checksum read at offset `4 + payloadLen` of a raw buffer. -/
def footerValOf (bytes : List Nat) (payloadLen : Nat) : Nat :=
  bytes.getD (4 + payloadLen) 0 + 256 * bytes.getD (5 + payloadLen) 0

/-- `tlvc_decode_data` (tlvc.cpp:38-76): fails when the buffer is shorter
than header+footer, when `sizeof(header) + header->length + sizeof(footer)`
differs from the buffer length, or when the checksum recomputed over
header+payload disagrees with the footer; otherwise returns the tag, a view
of the payload bytes (the buffer from offset `sizeof(header)` on, for
`payloadLen` bytes), and the payload length. Header fields, the footer and
the payload view are read at byte offsets of the buffer, exactly as the C
reads them through casts of `rawBytes`. -/
def tlvc_decode_data (bytes : List Nat) : Option (Nat × List Nat × Nat) :=
  if bytes.length < 6 then none
  else
    let tag := hdrTagOf bytes
    let payloadLen := hdrLenOf bytes
    if 4 + payloadLen + 2 ≠ bytes.length then none
    else
      let checksum := tlvcChecksum (bytes.take (4 + payloadLen))
      if footerValOf bytes payloadLen ≠ checksum then none
      else some (tag, (bytes.drop 4).take payloadLen, payloadLen)

/-! ### Checksum arithmetic lemmas -/

theorem foldl_mod_add (l : List Nat) (a : Nat) :
    l.foldl (fun acc b => (acc + b) % 65536) (a % 65536) = (a + l.sum) % 65536 := by
  induction l generalizing a with
  | nil => simp
  | cons x xs ih =>
    simp only [List.foldl_cons, List.sum_cons]
    rw [Nat.mod_add_mod]
    rw [ih (a + x)]
    ring_nf

theorem tlvcChecksum_eq_sum (l : List Nat) : tlvcChecksum l = l.sum % 65536 := by
  have h := foldl_mod_add l 0
  simpa [tlvcChecksum] using h

theorem tlvcChecksum_lt (l : List Nat) : tlvcChecksum l < 65536 := by
  rw [tlvcChecksum_eq_sum]
  exact Nat.mod_lt _ (by norm_num)

/-! ### Round trip (claim C2) -/

theorem length_serializeEnvelope (t : tlvc_data_t) :
    (serializeEnvelope t).length = 4 + t.data.length + 2 := by
  simp [serializeEnvelope, headerBytes, u16Bytes]
  omega

/-- C2: for every 16-bit tag and every payload of length 0..65535,
serializing the envelope produced by `tlvc_encode_data` and passing the
byte sequence with its exact total length to `tlvc_decode_data` succeeds
and returns the original tag, payload bytes and payload length. -/
theorem tlvc_round_trip (tag : Nat) (payload : List Nat)
    (htag : tag < 65536) (hlen : payload.length ≤ 65535) :
    tlvc_decode_data (serializeEnvelope (tlvc_encode_data tag payload)) =
      some (tag, payload, payload.length) := by
  have hmtag : tag % 65536 = tag := Nat.mod_eq_of_lt htag
  have hmlen : payload.length % 65536 = payload.length :=
    Nat.mod_eq_of_lt (by omega)
  set n := payload.length with hn
  set cs := tlvcChecksum (headerBytes tag n ++ payload) with hcs
  have hcslt : cs < 65536 := tlvcChecksum_lt _
  have hser : serializeEnvelope (tlvc_encode_data tag payload) =
      (tag % 256) :: (tag / 256 % 256) :: (n % 256) :: (n / 256 % 256) ::
        (payload ++ [cs % 256, cs / 256 % 256]) := by
    simp [serializeEnvelope, tlvc_encode_data, headerBytes, u16Bytes, hmtag, hmlen, hcs]
  set L := (tag % 256) :: (tag / 256 % 256) :: (n % 256) :: (n / 256 % 256) ::
      (payload ++ [cs % 256, cs / 256 % 256]) with hLdef
  rw [hser]
  have hlenser : L.length = n + 6 := by simp [hLdef]
  have htagrec : hdrTagOf L = tag := by
    simp only [hdrTagOf, hLdef, List.getD_cons_zero, List.getD_cons_succ]
    omega
  have hlenrec : hdrLenOf L = n := by
    have hnd : n / 256 % 256 = n / 256 := Nat.mod_eq_of_lt (by omega)
    simp only [hdrLenOf, hLdef, List.getD_cons_zero, List.getD_cons_succ]
    omega
  have htake4 : L.take (4 + n) = headerBytes tag n ++ payload := by
    simp only [hLdef, List.take_cons, headerBytes, u16Bytes]
    have : (payload ++ [cs % 256, cs / 256 % 256]).take n = payload := by
      rw [List.take_append_of_le_length (by omega)]
      simp [hn]
    simp only [show 4 + n = (3 + n) + 1 by omega]
    simp only [show (3 : Nat) + n = (2 + n) + 1 by omega]
    simp only [show (2 : Nat) + n = (1 + n) + 1 by omega]
    simp only [show (1 : Nat) + n = n + 1 by omega]
    simp [this]
  have hfoot : footerValOf L n = cs := by
    have h4 : L.getD (4 + n) 0 = (payload ++ [cs % 256, cs / 256 % 256]).getD n 0 := by
      simp only [hLdef, show 4 + n = (((n + 1) + 1) + 1) + 1 by omega, List.getD_cons_succ]
    have h5 : L.getD (5 + n) 0 =
        (payload ++ [cs % 256, cs / 256 % 256]).getD (n + 1) 0 := by
      simp only [hLdef, show 5 + n = ((((n + 1) + 1) + 1) + 1) + 1 by omega,
        List.getD_cons_succ]
    have hp0 : (payload ++ [cs % 256, cs / 256 % 256]).getD n 0 = cs % 256 := by
      rw [List.getD_append_right _ _ _ _ (by omega)]
      simp [hn]
    have hp1 : (payload ++ [cs % 256, cs / 256 % 256]).getD (n + 1) 0 =
        cs / 256 % 256 := by
      rw [List.getD_append_right _ _ _ _ (by omega)]
      have h1 : n + 1 - payload.length = 1 := by omega
      simp [h1]
    simp only [footerValOf]
    rw [h4, h5, hp0, hp1]
    omega
  have hdrop4 : (L.drop 4).take n = payload := by
    simp only [hLdef, List.drop_succ_cons, List.drop_zero]
    rw [List.take_append_of_le_length (by omega)]
    simp [hn]
  unfold tlvc_decode_data
  rw [if_neg (by omega : ¬ L.length < 6)]
  simp only [hlenrec, htagrec]
  rw [if_neg (by omega : ¬ 4 + n + 2 ≠ L.length)]
  rw [htake4, hfoot]
  rw [if_neg (by simp [hcs] : ¬ cs ≠ tlvcChecksum (headerBytes tag n ++ payload))]
  rw [hdrop4]

/-! ### List helper lemmas -/

theorem getD_drop_add (l : List Nat) (n m : Nat) :
    (l.drop n).getD m 0 = l.getD (n + m) 0 := by
  induction l generalizing n with
  | nil => simp
  | cons a t ih =>
    cases n with
    | zero => simp
    | succ k =>
      rw [List.drop_succ_cons, ih k]
      have h : k + 1 + m = (k + m) + 1 := by omega
      rw [h, List.getD_cons_succ]

theorem sum_set_add (l : List Nat) (i a : Nat) (h : i < l.length) :
    (l.set i a).sum + l.getD i 0 = l.sum + a := by
  induction l generalizing i with
  | nil => simp at h
  | cons x t ih =>
    cases i with
    | zero =>
      simp only [List.set_cons_zero, List.sum_cons, List.getD_cons_zero]
      omega
    | succ k =>
      have h' : k < t.length := by simpa using h
      have hk := ih k h'
      simp only [List.set_cons_succ, List.sum_cons, List.getD_cons_succ]
      omega

/-! ### Decode failure characterization (claim C6)

The three rejection conditions of `tlvc_decode_data`, stated directly over
the raw byte buffer via `hdrLenOf`/`footerValOf`. -/

theorem tlvc_decode_eq_none_iff (bytes : List Nat) :
    tlvc_decode_data bytes = none ↔
      bytes.length < 6 ∨
      4 + hdrLenOf bytes + 2 ≠ bytes.length ∨
      footerValOf bytes (hdrLenOf bytes) ≠
        tlvcChecksum (bytes.take (4 + hdrLenOf bytes)) := by
  unfold tlvc_decode_data
  by_cases h6 : bytes.length < 6
  · simp [h6]
  · rw [if_neg h6]
    by_cases hL : 4 + hdrLenOf bytes + 2 ≠ bytes.length
    · simp [hL]
    · rw [if_neg hL]
      by_cases hck : footerValOf bytes (hdrLenOf bytes) ≠
          tlvcChecksum (bytes.take (4 + hdrLenOf bytes))
      · simp [hck]
      · rw [if_neg hck]
        simp [h6, hL, hck]

/-- C6: `tlvc_decode_data` fails exactly when the buffer is shorter than
`sizeof(header)+sizeof(footer)`, or when
`sizeof(header) + header.length + sizeof(footer)` differs from the buffer
length, or when the recomputed additive checksum over header+payload
differs from the footer checksum; in every other case it succeeds. -/
theorem tlvc_decode_failure_characterization (bytes : List Nat) :
    tlvc_decode_data bytes = none ↔
      bytes.length < 6 ∨
      4 + hdrLenOf bytes + 2 ≠ bytes.length ∨
      footerValOf bytes (hdrLenOf bytes) ≠
        tlvcChecksum (bytes.take (4 + hdrLenOf bytes)) :=
  tlvc_decode_eq_none_iff bytes

/-! ### getD/set helper lemmas -/

theorem getD_set_self (l : List Nat) (i a : Nat) (h : i < l.length) :
    (l.set i a).getD i 0 = a := by
  have h' : i < (l.set i a).length := by simpa using h
  rw [List.getD_eq_getElem _ _ h']
  simp

theorem getD_set_ne (l : List Nat) (i j a : Nat) (h : i ≠ j) :
    (l.set i a).getD j 0 = l.getD j 0 := by
  by_cases hj : j < l.length
  · have h' : j < (l.set i a).length := by simpa using hj
    rw [List.getD_eq_getElem _ _ h', List.getD_eq_getElem _ _ hj]
    exact List.getElem_set_ne h _
  · rw [List.getD_eq_default _ _ (by simpa using Nat.le_of_not_lt hj),
      List.getD_eq_default _ _ (Nat.le_of_not_lt hj)]

/-! ### Checksum sensitivity (claim C3) -/

/-- C3: flipping any single bit of any header or payload byte of a
serialized envelope makes `tlvc_decode_data` reject the buffer. A flip in
the length field breaks the strict length equation; any other flip changes
the additive checksum by a nonzero amount below 2^16, so the footer
comparison fails. -/
theorem tlvc_bitflip_rejected (tag : Nat) (payload : List Nat) (i k : Nat)
    (htag : tag < 65536) (hlen : payload.length ≤ 65535)
    (hbytes : ∀ b ∈ payload, b < 256)
    (hi : i < 4 + payload.length) (hk : k < 8) :
    tlvc_decode_data
      ((serializeEnvelope (tlvc_encode_data tag payload)).set i
        ((serializeEnvelope (tlvc_encode_data tag payload)).getD i 0 ^^^ 2 ^ k)) =
      none := by
  set n := payload.length with hn
  set pre := headerBytes tag n ++ payload with hpre
  set cs := tlvcChecksum pre with hcs
  have hcslt : cs < 65536 := tlvcChecksum_lt _
  have hprelen : pre.length = 4 + n := by
    simp [hpre, headerBytes, u16Bytes, hn]
    omega
  have hser : serializeEnvelope (tlvc_encode_data tag payload) = pre ++ u16Bytes cs := by
    simp [serializeEnvelope, tlvc_encode_data, hpre, hcs, headerBytes,
      Nat.mod_eq_of_lt htag, Nat.mod_eq_of_lt (show n < 65536 by omega),
      List.append_assoc]
  rw [hser]
  set b := (pre ++ u16Bytes cs).getD i 0 with hbdef
  have hib : b = pre.getD i 0 := by
    rw [hbdef, List.getD_append _ _ _ _ (by omega)]
  set b' := b ^^^ 2 ^ k with hbflip
  have hset : (pre ++ u16Bytes cs).set i b' = pre.set i b' ++ u16Bytes cs :=
    List.set_append_left _ _ (by omega)
  rw [hset]
  have hallpre : ∀ x ∈ pre, x < 256 := by
    intro x hx
    rw [hpre] at hx
    rcases List.mem_append.mp hx with hx | hx
    · simp only [headerBytes, u16Bytes, List.cons_append, List.nil_append,
        List.mem_cons, List.not_mem_nil, or_false] at hx
      rcases hx with h | h | h | h <;> subst h <;> omega
    · exact hbytes x hx
  have hblt : b < 256 := by
    rw [hib]
    have hil : i < pre.length := by omega
    rw [List.getD_eq_getElem _ _ hil]
    exact hallpre _ (List.getElem_mem hil)
  have hbfliplt : b' < 256 := by
    have h2k : (2 : Nat) ^ k < 2 ^ 8 := Nat.pow_lt_pow_right (by norm_num) hk
    have := Nat.xor_lt_two_pow (x := b) (y := 2 ^ k) (n := 8) (by norm_num; omega) h2k
    norm_num at this
    omega
  have hbne : b' ≠ b := by
    rw [hbflip]
    intro h
    have h2 : b ^^^ 2 ^ k = b ^^^ 0 := by simpa using h
    have h3 := Nat.xor_right_inj.mp h2
    exact absurd h3 (Nat.pos_iff_ne_zero.mp (Nat.pos_pow_of_pos k (by norm_num)))
  have hh2 : pre.getD 2 0 = n % 256 := by
    rw [hpre, List.getD_append _ _ _ _ (by simp [headerBytes, u16Bytes])]
    simp [headerBytes, u16Bytes, List.getD_cons_succ, List.getD_cons_zero]
  have hh3 : pre.getD 3 0 = n / 256 % 256 := by
    rw [hpre, List.getD_append _ _ _ _ (by simp [headerBytes, u16Bytes])]
    simp [headerBytes, u16Bytes, List.getD_cons_succ, List.getD_cons_zero]
  have hn256 : n % 256 + 256 * (n / 256 % 256) = n := by
    have : n / 256 % 256 = n / 256 := Nat.mod_eq_of_lt (by omega)
    omega
  have hsetlen : (pre.set i b').length = 4 + n := by
    simp [hprelen]
  have hMlen : (pre.set i b' ++ u16Bytes cs).length = 4 + n + 2 := by
    simp [u16Bytes, hsetlen]
  rw [tlvc_decode_eq_none_iff]
  by_cases hi2 : i = 2
  · subst hi2
    have hg2 : (pre.set 2 b' ++ u16Bytes cs).getD 2 0 = b' := by
      rw [List.getD_append _ _ _ _ (by omega)]
      exact getD_set_self pre 2 b' (by omega)
    have hg3 : (pre.set 2 b' ++ u16Bytes cs).getD 3 0 = n / 256 % 256 := by
      rw [List.getD_append _ _ _ _ (by omega)]
      rw [getD_set_ne pre 2 3 b' (by omega)]
      exact hh3
    have hhd : hdrLenOf (pre.set 2 b' ++ u16Bytes cs) = b' + 256 * (n / 256 % 256) := by
      unfold hdrLenOf
      rw [hg2, hg3]
    have hbv : b = n % 256 := by rw [hib]; exact hh2
    right; left
    rw [hhd, hMlen]
    omega
  by_cases hi3 : i = 3
  · subst hi3
    have hg2 : (pre.set 3 b' ++ u16Bytes cs).getD 2 0 = n % 256 := by
      rw [List.getD_append _ _ _ _ (by omega)]
      rw [getD_set_ne pre 3 2 b' (by omega)]
      exact hh2
    have hg3 : (pre.set 3 b' ++ u16Bytes cs).getD 3 0 = b' := by
      rw [List.getD_append _ _ _ _ (by omega)]
      exact getD_set_self pre 3 b' (by omega)
    have hhd : hdrLenOf (pre.set 3 b' ++ u16Bytes cs) = n % 256 + 256 * b' := by
      unfold hdrLenOf
      rw [hg2, hg3]
    have hbv : b = n / 256 % 256 := by rw [hib]; exact hh3
    right; left
    rw [hhd, hMlen]
    omega
  · -- flip in the tag bytes or in the payload: checksum mismatch
    have hg2 : (pre.set i b' ++ u16Bytes cs).getD 2 0 = n % 256 := by
      rw [List.getD_append _ _ _ _ (by omega)]
      rw [getD_set_ne pre i 2 b' hi2]
      exact hh2
    have hg3 : (pre.set i b' ++ u16Bytes cs).getD 3 0 = n / 256 % 256 := by
      rw [List.getD_append _ _ _ _ (by omega)]
      rw [getD_set_ne pre i 3 b' hi3]
      exact hh3
    have hhd : hdrLenOf (pre.set i b' ++ u16Bytes cs) = n := by
      unfold hdrLenOf
      rw [hg2, hg3]
      omega
    right; right
    rw [hhd]
    have hfv : footerValOf (pre.set i b' ++ u16Bytes cs) n = cs := by
      have h4 : (pre.set i b' ++ u16Bytes cs).getD (4 + n) 0 = cs % 256 := by
        rw [List.getD_append_right _ _ _ _ (by omega)]
        simp [hsetlen, u16Bytes, show 4 + n - (4 + n) = 0 by omega]
      have h5 : (pre.set i b' ++ u16Bytes cs).getD (5 + n) 0 = cs / 256 % 256 := by
        rw [List.getD_append_right _ _ _ _ (by omega)]
        simp [hsetlen, u16Bytes, show 5 + n - (4 + n) = 1 by omega]
      simp only [footerValOf, h4, h5]
      omega
    have htk : (pre.set i b' ++ u16Bytes cs).take (4 + n) = pre.set i b' := by
      rw [List.take_append_of_le_length (by omega)]
      rw [show 4 + n = (pre.set i b').length from hsetlen.symm]
      exact List.take_length _
    rw [hfv, htk]
    intro heq
    have hil : i < pre.length := by omega
    have hsum := sum_set_add pre i b' hil
    rw [← hib] at hsum
    have hmodeq : (pre.set i b').sum % 65536 = pre.sum % 65536 := by
      rw [tlvcChecksum_eq_sum] at heq
      rw [hcs, tlvcChecksum_eq_sum] at heq
      omega
    have hbmod : b' % 65536 = b % 65536 := by
      have h1 : (pre.sum + b') % 65536 = ((pre.set i b').sum + b) % 65536 := by
        rw [hsum]
      have h2 : ((pre.set i b').sum + b) % 65536 = (pre.sum + b) % 65536 :=
        Nat.ModEq.add_right b hmodeq
      have h3 : (pre.sum + b') % 65536 = (pre.sum + b) % 65536 := h1.trans h2
      exact Nat.ModEq.add_left_cancel' pre.sum h3
    have : b' = b := by
      rw [Nat.mod_eq_of_lt (by omega), Nat.mod_eq_of_lt (by omega)] at hbmod
      exact hbmod
    exact hbne this

/-- Witness for C3 at tag 0, empty payload, byte 0, bit 0. -/
theorem tlvc_bitflip_rejected_witness :
    tlvc_decode_data
      ((serializeEnvelope (tlvc_encode_data 0 [])).set 0
        ((serializeEnvelope (tlvc_encode_data 0 [])).getD 0 0 ^^^ 2 ^ 0)) =
      none :=
  tlvc_bitflip_rejected 0 [] 0 0 (by decide) (by decide) (by decide)
    (by decide) (by decide)

/-- Witness for C2 at tag 7, payload `[1, 2, 3]`. -/
theorem tlvc_round_trip_witness :
    tlvc_decode_data (serializeEnvelope (tlvc_encode_data 7 [1, 2, 3])) =
      some (7, [1, 2, 3], 3) :=
  tlvc_round_trip 7 [1, 2, 3] (by decide) (by decide)

/-! ### Header-length truncation (claim C10) -/

/-- C10: `tlvc_encode_data` stores `dataLen mod 2^16` in the `uint16_t`
header length while `tlvc.dataLen` keeps the full length and the checksum
runs over all payload bytes; the header length equals the true payload
length exactly when the payload is at most 65535 bytes. -/
theorem tlvc_encode_header_truncation (tag : Nat) (data : List Nat) :
    (tlvc_encode_data tag data).length = data.length % 65536 ∧
    (tlvc_encode_data tag data).dataLen = data.length ∧
    (tlvc_encode_data tag data).checksum =
      tlvcChecksum
        (headerBytes (tlvc_encode_data tag data).tag
          (tlvc_encode_data tag data).length ++ data) ∧
    ((tlvc_encode_data tag data).length = (tlvc_encode_data tag data).dataLen ↔
      data.length ≤ 65535) := by
  refine ⟨rfl, rfl, rfl, ?_⟩
  simp only [tlvc_encode_data]
  omega

/-! ## Connection multiplexer (`src/server.cpp`)

`client_context_t` slots, the slot-scan of `server_on_client_connect`,
teardown in `server_on_client_disconnect`, and the per-client readiness
dispatch of `server_run`. The context pointer returned by `onConnect` is
abstracted over a type `γ`; socket-option side effects (`fcntl`,
`setsockopt` keepalive) act only on the OS socket and are not part of the
slot state, so they are not modelled. Externally visible actions (handler
invocations, `close`, epoll registration) are recorded as a trace. -/

/-- One `client_context_t` slot (server.hpp): in-use flag, socket fd,
opaque per-connection context pointer (`NULL` = `none`). -/
structure client_context (γ : Type) where
  inUse : Bool
  clientFd : Int
  contextData : Option γ
  deriving Repr

/-- Externally visible actions of the multiplexer, in program order. -/
inductive ServerAction (γ : Type) where
  | callOnConnect (fd : Int)
  | callOnDisconnect (ctx : Option γ)
  | closeFd (fd : Int)
  | epollAdd (fd : Int)
  | epollDel (fd : Int)
  deriving Repr

/-- `server_on_client_connect` (server.cpp:112-142): scan the slot array in
order; the first slot not in use is marked in use, gets the new fd and the
`onConnect` context, and the fd is registered with epoll. If no slot is
free the new connection's fd is closed and no handler runs. -/
def server_on_client_connect {γ : Type} (onConnect : Int → γ)
    (slots : List (client_context γ)) (cfd : Int) :
    List (client_context γ) × List (ServerAction γ) :=
  match slots with
  | [] => ([], [ServerAction.closeFd cfd])
  | s :: rest =>
    if s.inUse then
      let r := server_on_client_connect onConnect rest cfd
      (s :: r.1, r.2)
    else
      ({ inUse := true, clientFd := cfd, contextData := some (onConnect cfd) } :: rest,
       [ServerAction.callOnConnect cfd, ServerAction.epollAdd cfd])

/-- `server_on_client_disconnect` (server.cpp:148-154): call `onDisconnect`
with the stored context, unregister and close the fd, then free the slot
(the context pointer field is not cleared). -/
def server_on_client_disconnect {γ : Type}
    (slots : List (client_context γ)) (idx : Nat) :
    List (client_context γ) × List (ServerAction γ) :=
  match slots.get? idx with
  | none => (slots, [])
  | some s =>
    (slots.set idx { s with inUse := false, clientFd := -1 },
     [ServerAction.callOnDisconnect s.contextData, ServerAction.epollDel s.clientFd,
      ServerAction.closeFd s.clientFd])

/-- Number of slots whose in-use flag is set. -/
def countInUse {γ : Type} (slots : List (client_context γ)) : Nat :=
  slots.countP (fun s => s.inUse)

def EPOLLIN : Nat := 1
def EPOLLERR : Nat := 8
def EPOLLHUP : Nat := 16
def EPOLLRDHUP : Nat := 8192

/-- The client branch of the `server_run` event loop (server.cpp:183-196)
for the slot at `idx` whose fd matched the event: if any of
`EPOLLHUP|EPOLLERR|EPOLLRDHUP` is set in `ev.events`, the connection is
torn down; otherwise, if `EPOLLIN` is set, `onReadData` runs and a `false`
return also tears the connection down. The first component records
whether `onReadData` was invoked; `onReadResult` is the value it would
return. -/
def server_handle_client_event {γ : Type} (slots : List (client_context γ))
    (idx : Nat) (events : Nat) (onReadResult : Bool) :
    Bool × List (client_context γ) × List (ServerAction γ) :=
  if events &&& (EPOLLHUP ||| EPOLLERR ||| EPOLLRDHUP) ≠ 0 then
    (false, server_on_client_disconnect slots idx)
  else if events &&& EPOLLIN ≠ 0 then
    if onReadResult then (true, slots, [])
    else (true, server_on_client_disconnect slots idx)
  else (false, slots, [])

/-! ### Slot bound (claim C4) -/

theorem connect_full_closes {γ : Type} (onConnect : Int → γ)
    (slots : List (client_context γ)) (cfd : Int)
    (hfull : ∀ s ∈ slots, s.inUse = true) :
    server_on_client_connect onConnect slots cfd =
      (slots, [ServerAction.closeFd cfd]) := by
  induction slots with
  | nil => rfl
  | cons s rest ih =>
    have hs : s.inUse = true := hfull s (by simp)
    have hrest : ∀ t ∈ rest, t.inUse = true := fun t ht => hfull t (by simp [ht])
    simp [server_on_client_connect, hs, ih hrest]

theorem connect_preserves_length {γ : Type} (onConnect : Int → γ)
    (slots : List (client_context γ)) (cfd : Int) :
    (server_on_client_connect onConnect slots cfd).1.length = slots.length := by
  induction slots with
  | nil => rfl
  | cons s rest ih =>
    by_cases hs : s.inUse <;> simp [server_on_client_connect, hs, ih]

theorem disconnect_preserves_length {γ : Type}
    (slots : List (client_context γ)) (idx : Nat) :
    (server_on_client_disconnect slots idx).1.length = slots.length := by
  unfold server_on_client_disconnect
  cases h : slots.get? idx <;> simp

/-- C4: when every slot is in use, a newly accepted connection is closed
immediately with no handler invoked (in particular no `onConnect`), and
neither a connect nor a disconnect ever makes the number of in-use slots
exceed the slot-table capacity (`maxClients`, the fixed length of the
array allocated in `server_create`). -/
theorem server_slot_bound {γ : Type} (onConnect : Int → γ)
    (slots : List (client_context γ)) (cfd : Int)
    (hfull : ∀ s ∈ slots, s.inUse = true) :
    server_on_client_connect onConnect slots cfd =
      (slots, [ServerAction.closeFd cfd]) ∧
    (∀ a ∈ (server_on_client_connect onConnect slots cfd).2,
      ∀ fd, a ≠ ServerAction.callOnConnect fd) ∧
    (∀ (slots₂ : List (client_context γ)),
      (server_on_client_connect onConnect slots₂ cfd).1.length = slots₂.length ∧
      countInUse (server_on_client_connect onConnect slots₂ cfd).1 ≤ slots₂.length ∧
      ∀ (idx : Nat),
        (server_on_client_disconnect slots₂ idx).1.length = slots₂.length ∧
        countInUse (server_on_client_disconnect slots₂ idx).1 ≤ slots₂.length) := by
  refine ⟨connect_full_closes onConnect slots cfd hfull, ?_, ?_⟩
  · rw [connect_full_closes onConnect slots cfd hfull]
    intro a ha fd
    simp at ha
    simp [ha]
  · intro slots₂
    refine ⟨connect_preserves_length onConnect slots₂ cfd, ?_, ?_⟩
    · calc countInUse (server_on_client_connect onConnect slots₂ cfd).1
          ≤ (server_on_client_connect onConnect slots₂ cfd).1.length :=
            List.countP_le_length _
        _ = slots₂.length := connect_preserves_length onConnect slots₂ cfd
    · intro idx
      refine ⟨disconnect_preserves_length slots₂ idx, ?_⟩
      calc countInUse (server_on_client_disconnect slots₂ idx).1
          ≤ (server_on_client_disconnect slots₂ idx).1.length :=
            List.countP_le_length _
        _ = slots₂.length := disconnect_preserves_length slots₂ idx

/-- Witness for C4: a 2-slot table, both slots in use. -/
theorem server_slot_bound_witness :
    server_on_client_connect (γ := Unit) (fun _ => ()) 
      [⟨true, 5, some ()⟩, ⟨true, 6, some ()⟩] 7 =
      ([⟨true, 5, some ()⟩, ⟨true, 6, some ()⟩], [ServerAction.closeFd 7]) :=
  (server_slot_bound (fun _ => ()) [⟨true, 5, some ()⟩, ⟨true, 6, some ()⟩] 7
    (by intro s hs; simp only [List.mem_cons, List.not_mem_nil, or_false] at hs;
        rcases hs with h | h <;> subst h <;> rfl)).1

/-! ### Readiness dispatch ordering (claim C9) -/

/-- C9: a client readiness event carrying any of
`EPOLLHUP`/`EPOLLERR`/`EPOLLRDHUP` tears the connection down without
invoking `onReadData`, even when `EPOLLIN` is also set; `onReadData` is
invoked exactly on events with `EPOLLIN` set and none of the error flags. -/
theorem server_event_dispatch {γ : Type} (slots : List (client_context γ))
    (idx : Nat) (events : Nat) (onReadResult : Bool) :
    (events &&& (EPOLLHUP ||| EPOLLERR ||| EPOLLRDHUP) ≠ 0 →
      server_handle_client_event slots idx events onReadResult =
        (false, server_on_client_disconnect slots idx)) ∧
    ((server_handle_client_event slots idx events onReadResult).1 = true ↔
      events &&& (EPOLLHUP ||| EPOLLERR ||| EPOLLRDHUP) = 0 ∧
      events &&& EPOLLIN ≠ 0) := by
  constructor
  · intro herr
    simp [server_handle_client_event, herr]
  · by_cases herr : events &&& (EPOLLHUP ||| EPOLLERR ||| EPOLLRDHUP) ≠ 0
    · simp [server_handle_client_event, herr]
    · push_neg at herr
      by_cases hin : events &&& EPOLLIN ≠ 0
      · cases onReadResult <;> simp [server_handle_client_event, herr, hin]
      · push_neg at hin
        simp [server_handle_client_event, herr, hin]

/-- Witness for C9: an event with both `EPOLLIN` and `EPOLLHUP` set tears
down without reading. -/
theorem server_event_dispatch_witness :
    server_handle_client_event (γ := Unit) [⟨true, 5, some ()⟩] 0 17 true =
      (false, server_on_client_disconnect [⟨true, 5, some ()⟩] 0) :=
  (server_event_dispatch [⟨true, 5, some ()⟩] 0 17 true).1 (by decide)

/-! ## Read handlers (`src/warpout.cpp` `on_read`, `src/netstickd.cpp`
`jsproxy_read`)

Both handlers loop calling `read(2)` and feeding bytes to the SLIP
decoder until a call returns `rd <= 0`, then compute their return value
from that final `read` result and `errno`. The byte-processing loop
cannot influence the return value, which depends only on the final
`(rd, errno)` pair; these definitions embed the return computations
(warpout.cpp:315-333, netstickd.cpp:135-161). -/

def EINTR : Nat := 4
def EAGAIN : Nat := 11

/-- The `return` expression of `on_read` (warpout.cpp:332):
`rd != 0 || (rd < 0 && (errno == EINTR || errno == EAGAIN))`. -/
def on_read_return (rd : Int) (en : Nat) : Bool :=
  (rd != 0) || (decide (rd < 0) && ((en == EINTR) || (en == EAGAIN)))

/-- The return cascade of `jsproxy_read` (netstickd.cpp:157-160):
`if (nRead == 0) return false; if (nRead < 0 && (errno == EINTR || errno
== EAGAIN)) return true; return true;`. -/
def jsproxy_read_return (nRead : Int) (en : Nat) : Bool :=
  if nRead == 0 then false
  else if decide (nRead < 0) && ((en == EINTR) || (en == EAGAIN)) then true
  else true

/-- C8: the read handlers return `false` exactly on a clean EOF
(`read() == 0`); a negative `read()` with an errno other than
`EINTR`/`EAGAIN` still returns `true`, so an unrecoverable socket error
does not make the read handler itself close the connection. -/
theorem read_handlers_return (rd : Int) (en : Nat) (hrd : rd ≤ 0) :
    (on_read_return rd en = false ↔ rd = 0) ∧
    (jsproxy_read_return rd en = false ↔ rd = 0) ∧
    (rd < 0 → en ≠ EINTR → en ≠ EAGAIN →
      on_read_return rd en = true ∧ jsproxy_read_return rd en = true) := by
  refine ⟨?_, ?_, ?_⟩
  · by_cases h : rd = 0 <;> simp [on_read_return, h]
  · by_cases h : rd = 0 <;> simp [jsproxy_read_return, h]
  · intro hneg h1 h2
    constructor
    · simp [on_read_return, show rd ≠ 0 by omega]
    · rw [jsproxy_read_return, if_neg (by simpa using show rd ≠ 0 by omega)]
      by_cases hc : decide (rd < 0) && ((en == EINTR) || (en == EAGAIN)) <;>
        simp [hc]

/-- Witness for C8 at `rd = -1`, `errno = ECONNRESET (104)`. -/
theorem read_handlers_return_witness :
    on_read_return (-1) 104 = true ∧ jsproxy_read_return (-1) 104 = true :=
  (read_handlers_return (-1) 104 (by decide)).2.2 (by decide) (by decide) (by decide)

/-! ## Session handlers (`src/warpout.cpp` `handle_msg`,
`src/netstickd.cpp` `jsproxy_handle_message`)

Both files carry the same per-connection state (`configSet` flag plus a
joystick-context pointer, named `jsctx` resp. `joystickContext`) and the
same tag dispatch. The payload buffer handed to a handler is the raw
pointer `data_`, modelled as byte-addressable memory `Nat → Nat`, together
with the payload length `len`; the C code can read the buffer past `len`,
and the model preserves that. The joystick collaborator
(`joystick.h`/`joystick.cpp`) is not part of this repository's sources, so
the configuration record size (`sizeof(js_config_t)`) and the
interpretation of a tag-0 payload (`joystick_create`) are parameters
`cfgSize` and `parseConfig` of the handlers. -/

def EV_SYN : Nat := 0
def EV_KEY : Nat := 1
def EV_REL : Nat := 2
def EV_ABS : Nat := 3

/-- One `input_event` as passed to `write` on the uinput fd by
`emit_event` / `emit`. -/
structure input_event where
  type : Nat
  code : Nat
  value : Int
  deriving Repr, DecidableEq

/-- The parts of `js_config_t` used by the report path: the first
`absAxisCount` entries of `absAxis`, the first `relAxisCount` entries of
`relAxis`, the first `buttonCount` entries of `buttons` — each array
prefix modelled as a list whose length is the count. -/
structure js_config_t where
  absAxis : List Nat
  relAxis : List Nat
  buttons : List Nat
  deriving Repr, DecidableEq

/-- Modelled from the spec: `joystick_get_report_size` lives in the
joystick collaborator, which is missing from the sources; the spec fixes
the report size as `4*absCount + 4*relCount + 1*buttonCount` bytes. -/
def joystick_get_report_size (cfg : js_config_t) : Nat :=
  4 * cfg.absAxis.length + 4 * cfg.relAxis.length + cfg.buttons.length

/-- Per-connection session state: `client_ctx` (warpout.cpp) /
`jsproxy_client_context_t` (netstickd.cpp). The SLIP decoder member is
orthogonal to message handling and not modelled; the joystick context
pointer is carried as the configuration it holds (`none` = `NULL`). -/
structure client_ctx where
  configSet : Bool
  jsctx : Option js_config_t
  deriving Repr, DecidableEq

/-- An `int32_t` read from four consecutive payload bytes at `off`
(little-endian, two's complement), as done by indexing
`report.absAxis`/`report.relAxis` into the raw buffer. -/
def readI32 (buf : Nat → Nat) (off : Nat) : Int :=
  let u := buf off % 256 + 256 * (buf (off + 1) % 256) +
    65536 * (buf (off + 2) % 256) + 16777216 * (buf (off + 3) % 256)
  if u < 2147483648 then (u : Int) else (u : Int) - 4294967296

/-- The tag-1 emission loops shared verbatim by `handle_msg`
(warpout.cpp:288-309) and `jsproxy_handle_message`
(netstickd.cpp:84-126): one `EV_ABS` event per configured absolute axis
(value = the i-th i32 of the buffer), then one `EV_REL` per relative axis,
then one `EV_KEY` per button (value = the corresponding trailing byte),
then a single `{EV_SYN, 0, 0}`. -/
def emitReport (cfg : js_config_t) (buf : Nat → Nat) : List input_event :=
  ((List.range cfg.absAxis.length).map fun i =>
    ⟨EV_ABS, cfg.absAxis.getD i 0, readI32 buf (4 * i)⟩) ++
  ((List.range cfg.relAxis.length).map fun i =>
    ⟨EV_REL, cfg.relAxis.getD i 0, readI32 buf (4 * cfg.absAxis.length + 4 * i)⟩) ++
  ((List.range cfg.buttons.length).map fun i =>
    ⟨EV_KEY, cfg.buttons.getD i 0,
      ((buf (4 * (cfg.absAxis.length + cfg.relAxis.length) + i) % 256 : Nat) : Int)⟩) ++
  [⟨EV_SYN, 0, 0⟩]

/-- `handle_msg` (warpout.cpp:276-313). Tag 0: rejected if a config is
already set or the payload length differs from `sizeof(js_config_t)`
(`cfgSize`); otherwise the joystick context is created and `configSet`
raised. Tag 1: rejected only when `!configSet` — the payload length is
never compared against the configured report size — otherwise the report
is unpacked per the active config and emitted. Other tags are logged and
dropped. Returns the new state and the emitted events; the `none` branch
under `configSet` mirrors a state the program itself never constructs
(warpout dereferences `jsctx` unconditionally there). -/
def handle_msg (cfgSize : Nat) (parseConfig : (Nat → Nat) → js_config_t)
    (c : client_ctx) (tag : Nat) (buf : Nat → Nat) (len : Nat) :
    client_ctx × List input_event :=
  if tag = 0 then
    if c.configSet then (c, [])
    else if len ≠ cfgSize then (c, [])
    else ({ configSet := true, jsctx := some (parseConfig buf) }, [])
  else if tag = 1 then
    if !c.configSet then (c, [])
    else
      match c.jsctx with
      | some cfg => (c, emitReport cfg buf)
      | none => (c, [])
  else (c, [])

/-- `jsproxy_handle_message` (netstickd.cpp:67-132): identical dispatch,
except that the tag-1 guard also tests the joystick-context pointer
(`!context_->configSet || !context_->joystickContext`). The tag-1 payload
length `dataSize_` is likewise never checked. -/
def jsproxy_handle_message (cfgSize : Nat) (parseConfig : (Nat → Nat) → js_config_t)
    (c : client_ctx) (tag : Nat) (buf : Nat → Nat) (len : Nat) :
    client_ctx × List input_event :=
  if tag = 0 then
    if c.configSet then (c, [])
    else if len ≠ cfgSize then (c, [])
    else ({ configSet := true, jsctx := some (parseConfig buf) }, [])
  else if tag = 1 then
    if !c.configSet || c.jsctx.isNone then (c, [])
    else
      match c.jsctx with
      | some cfg => (c, emitReport cfg buf)
      | none => (c, [])
  else (c, [])

/-! ### Sequencing (claim C5) -/

/-- C5: in both handlers a tag-1 message arriving before any configuration
is dropped with the state untouched, and a tag-0 message arriving when a
configuration is already active is dropped with the state (flag and
joystick context) untouched; the handlers return normally — neither path
produces any event or closes the connection (connection teardown is
decided solely by the read handler's return and the readiness source,
independent of message contents). -/
theorem session_sequencing (cfgSize : Nat)
    (parseConfig : (Nat → Nat) → js_config_t) (c : client_ctx)
    (buf : Nat → Nat) (len : Nat) :
    (c.configSet = false →
      handle_msg cfgSize parseConfig c 1 buf len = (c, []) ∧
      jsproxy_handle_message cfgSize parseConfig c 1 buf len = (c, [])) ∧
    (c.configSet = true →
      handle_msg cfgSize parseConfig c 0 buf len = (c, []) ∧
      jsproxy_handle_message cfgSize parseConfig c 0 buf len = (c, [])) := by
  constructor
  · intro h
    constructor <;> simp [handle_msg, jsproxy_handle_message, h]
  · intro h
    constructor <;> simp [handle_msg, jsproxy_handle_message, h]

/-- Witness for C5: an unconfigured context dropping a report and a
configured context dropping a second configuration. -/
theorem session_sequencing_witness :
    handle_msg 8 (fun _ => ⟨[], [], []⟩) ⟨false, none⟩ 1 (fun _ => 0) 3 =
      (⟨false, none⟩, []) ∧
    jsproxy_handle_message 8 (fun _ => ⟨[], [], []⟩)
      ⟨true, some ⟨[], [], []⟩⟩ 0 (fun _ => 0) 8 =
      (⟨true, some ⟨[], [], []⟩⟩, []) :=
  ⟨((session_sequencing 8 (fun _ => ⟨[], [], []⟩) ⟨false, none⟩
      (fun _ => 0) 3).1 rfl).1,
   ((session_sequencing 8 (fun _ => ⟨[], [], []⟩) ⟨true, some ⟨[], [], []⟩⟩
      (fun _ => 0) 8).2 rfl).2⟩

/-! ### Playback event order (claim C7) -/

theorem emitReport_length (cfg : js_config_t) (buf : Nat → Nat) :
    (emitReport cfg buf).length =
      cfg.absAxis.length + cfg.relAxis.length + cfg.buttons.length + 1 := by
  simp [emitReport]
  omega

theorem emitReport_abs (cfg : js_config_t) (buf : Nat → Nat) (i : Nat)
    (h : i < cfg.absAxis.length) :
    (emitReport cfg buf)[i]? =
      some ⟨EV_ABS, cfg.absAxis.getD i 0, readI32 buf (4 * i)⟩ := by
  unfold emitReport
  rw [List.getElem?_append_left
    (by simp only [List.length_append, List.length_map, List.length_range]; omega)]
  rw [List.getElem?_append_left
    (by simp only [List.length_append, List.length_map, List.length_range]; omega)]
  rw [List.getElem?_append_left (by simpa using h)]
  rw [List.getElem?_map, List.getElem?_range h]
  rfl

theorem emitReport_rel (cfg : js_config_t) (buf : Nat → Nat) (i : Nat)
    (h : i < cfg.relAxis.length) :
    (emitReport cfg buf)[cfg.absAxis.length + i]? =
      some ⟨EV_REL, cfg.relAxis.getD i 0,
        readI32 buf (4 * cfg.absAxis.length + 4 * i)⟩ := by
  unfold emitReport
  rw [List.getElem?_append_left
    (by simp only [List.length_append, List.length_map, List.length_range]; omega)]
  rw [List.getElem?_append_left
    (by simp only [List.length_append, List.length_map, List.length_range]; omega)]
  rw [List.getElem?_append_right (by simp)]
  simp only [List.length_map, List.length_range,
    show cfg.absAxis.length + i - cfg.absAxis.length = i by omega]
  rw [List.getElem?_map, List.getElem?_range h]
  rfl

theorem emitReport_key (cfg : js_config_t) (buf : Nat → Nat) (i : Nat)
    (h : i < cfg.buttons.length) :
    (emitReport cfg buf)[cfg.absAxis.length + cfg.relAxis.length + i]? =
      some ⟨EV_KEY, cfg.buttons.getD i 0,
        ((buf (4 * (cfg.absAxis.length + cfg.relAxis.length) + i) % 256 : Nat) : Int)⟩ := by
  unfold emitReport
  rw [List.getElem?_append_left
    (by simp only [List.length_append, List.length_map, List.length_range]; omega)]
  rw [List.getElem?_append_right
    (by simp only [List.length_append, List.length_map, List.length_range]; omega)]
  simp only [List.length_append, List.length_map, List.length_range,
    show cfg.absAxis.length + cfg.relAxis.length + i -
      (cfg.absAxis.length + cfg.relAxis.length) = i by omega]
  rw [List.getElem?_map, List.getElem?_range h]
  rfl

theorem emitReport_syn (cfg : js_config_t) (buf : Nat → Nat) :
    (emitReport cfg buf)[cfg.absAxis.length + cfg.relAxis.length +
        cfg.buttons.length]? = some ⟨EV_SYN, 0, 0⟩ := by
  unfold emitReport
  rw [List.getElem?_append_right
    (by simp only [List.length_append, List.length_map, List.length_range]; omega)]
  simp only [List.length_append, List.length_map, List.length_range,
    show cfg.absAxis.length + cfg.relAxis.length + cfg.buttons.length -
      (cfg.absAxis.length + cfg.relAxis.length + cfg.buttons.length) = 0 by omega]
  rfl

theorem handle_msg_report (cfgSize : Nat)
    (parseConfig : (Nat → Nat) → js_config_t) (c : client_ctx)
    (cfg : js_config_t) (buf : Nat → Nat) (len : Nat)
    (hset : c.configSet = true) (hcfg : c.jsctx = some cfg) :
    handle_msg cfgSize parseConfig c 1 buf len = (c, emitReport cfg buf) ∧
    jsproxy_handle_message cfgSize parseConfig c 1 buf len =
      (c, emitReport cfg buf) := by
  constructor <;> simp [handle_msg, jsproxy_handle_message, hset, hcfg]

/-- C7: for a configured connection, a tag-1 report of the configured
report size is re-emitted as exactly one `EV_ABS` event per configured
absolute axis first (in declaration order, with the corresponding i32
value), then one `EV_REL` per relative axis, then one `EV_KEY` per
button, then exactly one `{EV_SYN, 0, 0}` — and nothing else (the total
event count is the sum of the three counts plus one). Both playback
handlers produce the same sequence and leave the connection state
unchanged. -/
theorem playback_event_order (cfgSize : Nat)
    (parseConfig : (Nat → Nat) → js_config_t) (c : client_ctx)
    (cfg : js_config_t) (buf : Nat → Nat) (len : Nat)
    (hset : c.configSet = true) (hcfg : c.jsctx = some cfg)
    (hlen : len = joystick_get_report_size cfg) :
    (handle_msg cfgSize parseConfig c 1 buf len).1 = c ∧
    jsproxy_handle_message cfgSize parseConfig c 1 buf len =
      handle_msg cfgSize parseConfig c 1 buf len ∧
    (handle_msg cfgSize parseConfig c 1 buf len).2.length =
      cfg.absAxis.length + cfg.relAxis.length + cfg.buttons.length + 1 ∧
    (∀ i, i < cfg.absAxis.length →
      (handle_msg cfgSize parseConfig c 1 buf len).2[i]? =
        some ⟨EV_ABS, cfg.absAxis.getD i 0, readI32 buf (4 * i)⟩) ∧
    (∀ i, i < cfg.relAxis.length →
      (handle_msg cfgSize parseConfig c 1 buf len).2[cfg.absAxis.length + i]? =
        some ⟨EV_REL, cfg.relAxis.getD i 0,
          readI32 buf (4 * cfg.absAxis.length + 4 * i)⟩) ∧
    (∀ i, i < cfg.buttons.length →
      (handle_msg cfgSize parseConfig c 1 buf
          len).2[cfg.absAxis.length + cfg.relAxis.length + i]? =
        some ⟨EV_KEY, cfg.buttons.getD i 0,
          ((buf (4 * (cfg.absAxis.length + cfg.relAxis.length) + i) % 256 :
            Nat) : Int)⟩) ∧
    (handle_msg cfgSize parseConfig c 1 buf
        len).2[cfg.absAxis.length + cfg.relAxis.length + cfg.buttons.length]? =
      some ⟨EV_SYN, 0, 0⟩ := by
  obtain ⟨h1, h2⟩ := handle_msg_report cfgSize parseConfig c cfg buf len hset hcfg
  rw [h1, h2]
  exact ⟨rfl, rfl, emitReport_length cfg buf,
    fun i hi => emitReport_abs cfg buf i hi,
    fun i hi => emitReport_rel cfg buf i hi,
    fun i hi => emitReport_key cfg buf i hi,
    emitReport_syn cfg buf⟩

/-- Witness for C7, the spec's end-to-end scenario: one absolute axis at
code 10 reporting 500, one button at code 20 pressed; the emitted
sequence is `{EV_ABS, 10, 500}`, `{EV_KEY, 20, 1}`, `{EV_SYN, 0, 0}`. -/
theorem playback_event_order_witness :
    (handle_msg 8 (fun _ => ⟨[], [], []⟩) ⟨true, some ⟨[10], [], [20]⟩⟩ 1
      (fun i => [244, 1, 0, 0, 1].getD i 0) 5).2[0]? =
      some ⟨EV_ABS, 10, 500⟩ ∧
    (handle_msg 8 (fun _ => ⟨[], [], []⟩) ⟨true, some ⟨[10], [], [20]⟩⟩ 1
      (fun i => [244, 1, 0, 0, 1].getD i 0) 5).2[1]? =
      some ⟨EV_KEY, 20, 1⟩ ∧
    (handle_msg 8 (fun _ => ⟨[], [], []⟩) ⟨true, some ⟨[10], [], [20]⟩⟩ 1
      (fun i => [244, 1, 0, 0, 1].getD i 0) 5).2[2]? =
      some ⟨EV_SYN, 0, 0⟩ ∧
    (handle_msg 8 (fun _ => ⟨[], [], []⟩) ⟨true, some ⟨[10], [], [20]⟩⟩ 1
      (fun i => [244, 1, 0, 0, 1].getD i 0) 5).2.length = 3 := by
  have h := playback_event_order 8 (fun _ => ⟨[], [], []⟩)
    ⟨true, some ⟨[10], [], [20]⟩⟩ ⟨[10], [], [20]⟩
    (fun i => [244, 1, 0, 0, 1].getD i 0) 5 rfl rfl (by decide)
  refine ⟨?_, ?_, ?_, ?_⟩
  · exact (h.2.2.2.1 0 (by decide)).trans (by decide)
  · exact (h.2.2.2.2.2.1 0 (by decide)).trans (by decide)
  · exact h.2.2.2.2.2.2
  · exact h.2.2.1

/-! ### Tag-1 payload length (claim C1) -/

/-- C1 evaluation: the specification requires a `Configured` tag-1
message's payload length to equal `4*absCount + 4*relCount + buttonCount`
(here 15 for counts 2/1/3) and lengths such as 14 or 16 to be rejected
with no events. Neither `handle_msg` nor `jsproxy_handle_message`
compares the tag-1 payload length against the configured report size: a
14-byte (or 16-byte) payload is accepted, all `2+1+3` events plus the
sync event are emitted (reading past the 14-byte payload), and the state
is kept. -/
theorem report_size_not_validated :
    joystick_get_report_size ⟨[0, 1], [2], [3, 4, 5]⟩ = 15 ∧
    (handle_msg 1472 (fun _ => ⟨[0, 1], [2], [3, 4, 5]⟩)
        ⟨true, some ⟨[0, 1], [2], [3, 4, 5]⟩⟩ 1 (fun _ => 0) 14).2.length = 7 ∧
    (jsproxy_handle_message 1472 (fun _ => ⟨[0, 1], [2], [3, 4, 5]⟩)
        ⟨true, some ⟨[0, 1], [2], [3, 4, 5]⟩⟩ 1 (fun _ => 0) 14).2.length = 7 ∧
    (handle_msg 1472 (fun _ => ⟨[0, 1], [2], [3, 4, 5]⟩)
        ⟨true, some ⟨[0, 1], [2], [3, 4, 5]⟩⟩ 1 (fun _ => 0) 16).2.length = 7 := by
  refine ⟨rfl, ?_, ?_, ?_⟩ <;> decide

end Justjoy
